import Mathlib

/-!
Verification of the PyThermalCamera repository against its natural-language
specification.  The Python sources (utils.py, thermal_camera.py, settings.py,
main.py, display_hybrid.py) are shallowly embedded below: pure numeric code is
translated to functions over ℕ/ℤ/ℚ, the mutable camera/settings object becomes
explicit state passing, and the mode controller's sequential control flow is
embedded as a state-plus-event-trace function.  Python float arithmetic is
modelled with exact rationals; `round(x, 2)` is modelled by `round2`.
-/

namespace PyThermalCamera

/-- Rounding to two decimal places, modelling Python `round(x, 2)`.  Ties never
occur in any instance evaluated in this development, so the tie-breaking
convention is irrelevant to every theorem below. -/
def round2 (q : ℚ) : ℚ := (round (q * 100) : ℤ) / 100

/-- A thermal pixel as stored in the plane: `(low_byte, high_byte)` of a 16-bit
little-endian sample (source: utils.py, `thdata[...][0]` and `thdata[...][1]`). -/
abbrev Pixel := ℕ × ℕ

/-- Embedding of utils.py `calculate_temperature`: the source computes
`round((int(pixel[0]) + int(pixel[1]) * 256) / 64 - 273.15, 2)`; the `int`
casts make the arithmetic unbounded, which the ℚ model reflects. -/
def calculate_temperature (pixel : Pixel) : ℚ :=
  round2 (((pixel.1 : ℚ) + (pixel.2 : ℚ) * 256) / 64 - 273.15)

/-- Claim C1: for every 16-bit sample `s` in `[0, 65535]`, presented to
`calculate_temperature` as the pair `(low_byte, high_byte) = (s % 256, s / 256)`,
the result is `round2 (s / 64 - 273.15)`, and the widened (unbounded-int)
intermediate `low + high * 256` stays below `2 ^ 32`, so arithmetic of width at
least 32 bits suffices and no fixed-width overflow occurs on the domain. -/
theorem calculate_temperature_decodes_sample (s : ℕ) (hs : s < 65536) :
    calculate_temperature (s % 256, s / 256) = round2 ((s : ℚ) / 64 - 273.15) ∧
    s % 256 + s / 256 * 256 < 2 ^ 32 := by
  have hsplit : s % 256 + s / 256 * 256 = s := Nat.mod_add_div' s 256
  constructor
  · have hq : ((s % 256 : ℕ) : ℚ) + ((s / 256 : ℕ) : ℚ) * 256 = (s : ℚ) := by
      have := congrArg (fun n : ℕ => (n : ℚ)) hsplit
      push_cast at this
      exact this
    unfold calculate_temperature
    rw [show ((s % 256, s / 256) : Pixel).1 = s % 256 from rfl,
        show ((s % 256, s / 256) : Pixel).2 = s / 256 from rfl, hq]
  · omega

/-- Witness for C1 at the concrete sample `s = 19000`
(temperature `round2 (19000 / 64 - 273.15) = 23.73` degrees). -/
theorem calculate_temperature_decodes_sample_witness :
    calculate_temperature (19000 % 256, 19000 / 256) =
      round2 ((19000 : ℚ) / 64 - 273.15) ∧
    19000 % 256 + 19000 / 256 * 256 < 2 ^ 32 :=
  calculate_temperature_decodes_sample 19000 (by decide)

/-- Embedding of `np.argmax` over a flat list: index of the first occurrence of
the maximum (row-major flat order), `0` on the empty list. -/
def argmaxIdx : List ℕ → ℕ
  | [] => 0
  | [_] => 0
  | x :: y :: t =>
    if x < (y :: t).getD (argmaxIdx (y :: t)) 0 then argmaxIdx (y :: t) + 1 else 0

/-- Embedding of `np.argmin` over a flat list: index of the first occurrence of
the minimum (row-major flat order), `0` on the empty list. -/
def argminIdx : List ℕ → ℕ
  | [] => 0
  | [_] => 0
  | x :: y :: t =>
    if (y :: t).getD (argminIdx (y :: t)) 0 < x then argminIdx (y :: t) + 1 else 0

theorem argmaxIdx_lt_length : ∀ (l : List ℕ), l ≠ [] → argmaxIdx l < l.length := by
  intro l
  induction l with
  | nil => intro h; exact absurd rfl h
  | cons x t ih =>
    intro _
    cases t with
    | nil => simp [argmaxIdx]
    | cons y t2 =>
      rw [argmaxIdx]
      split
      · have := ih (by simp)
        simpa using Nat.succ_lt_succ this
      · simp

theorem argminIdx_lt_length : ∀ (l : List ℕ), l ≠ [] → argminIdx l < l.length := by
  intro l
  induction l with
  | nil => intro h; exact absurd rfl h
  | cons x t ih =>
    intro _
    cases t with
    | nil => simp [argminIdx]
    | cons y t2 =>
      rw [argminIdx]
      split
      · have := ih (by simp)
        simpa using Nat.succ_lt_succ this
      · simp

theorem argmaxIdx_is_max : ∀ (l : List ℕ) (j : ℕ), j < l.length →
    l.getD j 0 ≤ l.getD (argmaxIdx l) 0 := by
  intro l
  induction l with
  | nil => intro j hj; simp at hj
  | cons x t ih =>
    intro j hj
    cases t with
    | nil =>
      rcases j with _ | k
      · simp [argmaxIdx]
      · simp at hj
    | cons y t2 =>
      rw [argmaxIdx]
      split
      · rename_i hlt
        rcases j with _ | k
        · simpa using le_of_lt hlt
        · simpa using ih k (by simpa using hj)
      · rename_i hge
        rcases j with _ | k
        · simp
        · have h1 : (y :: t2).getD k 0 ≤ (y :: t2).getD (argmaxIdx (y :: t2)) 0 :=
            ih k (by simpa using hj)
          simp only [List.getD_cons_succ, List.getD_cons_zero]
          exact le_trans h1 (le_of_not_lt hge)

theorem argminIdx_is_min : ∀ (l : List ℕ) (j : ℕ), j < l.length →
    l.getD (argminIdx l) 0 ≤ l.getD j 0 := by
  intro l
  induction l with
  | nil => intro j hj; simp at hj
  | cons x t ih =>
    intro j hj
    cases t with
    | nil =>
      rcases j with _ | k
      · simp [argminIdx]
      · simp at hj
    | cons y t2 =>
      rw [argminIdx]
      split
      · rename_i hlt
        rcases j with _ | k
        · simpa using le_of_lt hlt
        · simpa using ih k (by simpa using hj)
      · rename_i hge
        rcases j with _ | k
        · simp
        · have h1 : (y :: t2).getD (argminIdx (y :: t2)) 0 ≤ (y :: t2).getD k 0 :=
            ih k (by simpa using hj)
          simp only [List.getD_cons_succ, List.getD_cons_zero]
          exact le_trans (le_of_not_lt hge) h1

theorem argmaxIdx_first_occurrence : ∀ (l : List ℕ) (j : ℕ), j < argmaxIdx l →
    l.getD j 0 < l.getD (argmaxIdx l) 0 := by
  intro l
  induction l with
  | nil => intro j hj; simp [argmaxIdx] at hj
  | cons x t ih =>
    intro j hj
    cases t with
    | nil => simp [argmaxIdx] at hj
    | cons y t2 =>
      rw [argmaxIdx] at hj ⊢
      split at hj
      · rename_i hlt
        rw [if_pos hlt]
        rcases j with _ | k
        · simpa using hlt
        · simpa using ih k (by omega)
      · omega

theorem argminIdx_first_occurrence : ∀ (l : List ℕ) (j : ℕ), j < argminIdx l →
    l.getD (argminIdx l) 0 < l.getD j 0 := by
  intro l
  induction l with
  | nil => intro j hj; simp [argminIdx] at hj
  | cons x t ih =>
    intro j hj
    cases t with
    | nil => simp [argminIdx] at hj
    | cons y t2 =>
      rw [argminIdx] at hj ⊢
      split at hj
      · rename_i hlt
        rw [if_pos hlt]
        rcases j with _ | k
        · simpa using hlt
        · simpa using ih k (by omega)
      · omega

theorem flatten_length_const {α : Type} : ∀ (rows : List (List α)) (w : ℕ),
    (∀ r ∈ rows, r.length = w) → rows.flatten.length = rows.length * w := by
  intro rows w
  induction rows with
  | nil => intro _; simp
  | cons r rs ih =>
    intro h
    have hr : r.length = w := h r (by simp)
    have hrs := ih (fun r hmem => h r (by simp [hmem]))
    simp only [List.flatten_cons, List.length_append, List.length_cons, hr, hrs]
    ring

theorem flatten_getD {α : Type} (d : α) : ∀ (rows : List (List α)) (w : ℕ),
    0 < w → (∀ r ∈ rows, r.length = w) → ∀ i, i < rows.length * w →
    rows.flatten.getD i d = (rows.getD (i / w) []).getD (i % w) d := by
  intro rows
  induction rows with
  | nil => intro w _ _ i hi; simp at hi
  | cons r rs ih =>
    intro w hw h i hi
    have hr : r.length = w := h r (by simp)
    rcases Nat.lt_or_ge i w with hiw | hiw
    · have hdiv : i / w = 0 := Nat.div_eq_of_lt hiw
      have hmod : i % w = i := Nat.mod_eq_of_lt hiw
      rw [List.flatten_cons, List.getD_append _ _ _ _ (by omega), hdiv, hmod]
      simp
    · have hdiv : i / w = (i - w) / w + 1 := Nat.div_eq_sub_div hw hiw
      have hsm : (rs.length + 1) * w = rs.length * w + w := Nat.succ_mul rs.length w
      have hi2 : i - w < rs.length * w := by
        simp only [List.length_cons] at hi
        omega
      rw [List.flatten_cons, List.getD_append_right _ _ _ _ (by omega), hdiv]
      rw [Nat.mod_eq_sub_mod hiw, hr]
      have := ih w hw (fun r hmem => h r (by simp [hmem])) (i - w) hi2
      simpa using this

/-- The second byte-channel of a thermal plane in row-major flat order,
modelling `thdata[...,1]` as consumed by `np.argmax` / `np.argmin`. -/
def channel1 (thdata : List (List Pixel)) : List ℕ := thdata.flatten.map Prod.snd

/-- The first byte-channel of a thermal plane in row-major flat order,
modelling `thdata[...,0]`. -/
def channel0 (thdata : List (List Pixel)) : List ℕ := thdata.flatten.map Prod.fst

/-- Embedding of utils.py `find_extreme_temperature`: the source computes
`pos = func(thdata[...,1])`, `col, row = divmod(pos, width)` (so the local
variable `col` holds the quotient and `row` the remainder), decodes
`thdata[col][row]`, and returns `(temp, (row, col))`. -/
def find_extreme_temperature (thdata : List (List Pixel)) (func : List ℕ → ℕ)
    (width : ℕ) : ℚ × (ℕ × ℕ) :=
  let pos := func (channel1 thdata)
  let col := pos / width
  let row := pos % width
  (calculate_temperature ((thdata.getD col []).getD row (0, 0)), (row, col))

/-- Claim C2: on a non-empty plane whose rows all have length `width`, the
extreme finder applied with the argmax (resp. argmin) comparator returns the
decoded full 16-bit sample at flat index `pos` of the row-major flattened
plane together with the position pair `(pos % width, pos / width)` — that is,
`(row, col)` obtained from `divmod(pos, width)` reported as `(col, row)` —
where `pos` achieves the maximum (resp. minimum) of the second byte-channel
and every strictly earlier flat index holds a strictly smaller (resp. larger)
channel value: ties are broken by first occurrence in row-major scan order. -/
theorem find_extreme_temperature_spec (plane : List (List Pixel)) (w : ℕ)
    (hw : 0 < w) (hne : plane ≠ []) (hlen : ∀ r ∈ plane, r.length = w) :
    (find_extreme_temperature plane argmaxIdx w =
        (calculate_temperature (plane.flatten.getD (argmaxIdx (channel1 plane)) (0, 0)),
         (argmaxIdx (channel1 plane) % w, argmaxIdx (channel1 plane) / w)) ∧
      (∀ j < (channel1 plane).length,
        (channel1 plane).getD j 0 ≤ (channel1 plane).getD (argmaxIdx (channel1 plane)) 0) ∧
      (∀ j < argmaxIdx (channel1 plane),
        (channel1 plane).getD j 0 < (channel1 plane).getD (argmaxIdx (channel1 plane)) 0)) ∧
    (find_extreme_temperature plane argminIdx w =
        (calculate_temperature (plane.flatten.getD (argminIdx (channel1 plane)) (0, 0)),
         (argminIdx (channel1 plane) % w, argminIdx (channel1 plane) / w)) ∧
      (∀ j < (channel1 plane).length,
        (channel1 plane).getD (argminIdx (channel1 plane)) 0 ≤ (channel1 plane).getD j 0) ∧
      (∀ j < argminIdx (channel1 plane),
        (channel1 plane).getD (argminIdx (channel1 plane)) 0 < (channel1 plane).getD j 0)) := by
  have hlen1 : (channel1 plane).length = plane.length * w := by
    simp only [channel1, List.length_map]
    exact flatten_length_const plane w hlen
  have hplen : 0 < plane.length := List.length_pos.mpr hne
  have hch_ne : channel1 plane ≠ [] := by
    apply List.length_pos.mp
    rw [hlen1]
    exact Nat.mul_pos hplen hw
  refine ⟨⟨?_, fun j hj => argmaxIdx_is_max _ j hj,
            fun j hj => argmaxIdx_first_occurrence _ j hj⟩,
          ⟨?_, fun j hj => argminIdx_is_min _ j hj,
            fun j hj => argminIdx_first_occurrence _ j hj⟩⟩
  · have hpos : argmaxIdx (channel1 plane) < plane.length * w := by
      rw [← hlen1]
      exact argmaxIdx_lt_length _ hch_ne
    have hget := flatten_getD (0, 0) plane w hw hlen _ hpos
    simp only [find_extreme_temperature]
    rw [← hget]
  · have hpos : argminIdx (channel1 plane) < plane.length * w := by
      rw [← hlen1]
      exact argminIdx_lt_length _ hch_ne
    have hget := flatten_getD (0, 0) plane w hw hlen _ hpos
    simp only [find_extreme_temperature]
    rw [← hget]

/-- Witness for C2 on the concrete 2-by-2 plane
`[[(1,5),(2,3)],[(4,9),(0,9)]]` with width 2, whose second byte-channel
`[5,3,9,9]` has a tied maximum at flat indices 2 and 3: the earlier one wins. -/
theorem find_extreme_temperature_spec_witness :
    (find_extreme_temperature [[(1,5),(2,3)],[(4,9),(0,9)]] argmaxIdx 2 =
        (calculate_temperature
          ((List.flatten [[(1,5),(2,3)],[(4,9),(0,9)]]).getD
            (argmaxIdx (channel1 [[(1,5),(2,3)],[(4,9),(0,9)]])) (0, 0)),
         (argmaxIdx (channel1 [[(1,5),(2,3)],[(4,9),(0,9)]]) % 2,
          argmaxIdx (channel1 [[(1,5),(2,3)],[(4,9),(0,9)]]) / 2)) ∧
      (∀ j < (channel1 [[(1,5),(2,3)],[(4,9),(0,9)]]).length,
        (channel1 [[(1,5),(2,3)],[(4,9),(0,9)]]).getD j 0 ≤
          (channel1 [[(1,5),(2,3)],[(4,9),(0,9)]]).getD
            (argmaxIdx (channel1 [[(1,5),(2,3)],[(4,9),(0,9)]])) 0) ∧
      (∀ j < argmaxIdx (channel1 [[(1,5),(2,3)],[(4,9),(0,9)]]),
        (channel1 [[(1,5),(2,3)],[(4,9),(0,9)]]).getD j 0 <
          (channel1 [[(1,5),(2,3)],[(4,9),(0,9)]]).getD
            (argmaxIdx (channel1 [[(1,5),(2,3)],[(4,9),(0,9)]])) 0)) ∧
    (find_extreme_temperature [[(1,5),(2,3)],[(4,9),(0,9)]] argminIdx 2 =
        (calculate_temperature
          ((List.flatten [[(1,5),(2,3)],[(4,9),(0,9)]]).getD
            (argminIdx (channel1 [[(1,5),(2,3)],[(4,9),(0,9)]])) (0, 0)),
         (argminIdx (channel1 [[(1,5),(2,3)],[(4,9),(0,9)]]) % 2,
          argminIdx (channel1 [[(1,5),(2,3)],[(4,9),(0,9)]]) / 2)) ∧
      (∀ j < (channel1 [[(1,5),(2,3)],[(4,9),(0,9)]]).length,
        (channel1 [[(1,5),(2,3)],[(4,9),(0,9)]]).getD
            (argminIdx (channel1 [[(1,5),(2,3)],[(4,9),(0,9)]])) 0 ≤
          (channel1 [[(1,5),(2,3)],[(4,9),(0,9)]]).getD j 0) ∧
      (∀ j < argminIdx (channel1 [[(1,5),(2,3)],[(4,9),(0,9)]]),
        (channel1 [[(1,5),(2,3)],[(4,9),(0,9)]]).getD
            (argminIdx (channel1 [[(1,5),(2,3)],[(4,9),(0,9)]])) 0 <
          (channel1 [[(1,5),(2,3)],[(4,9),(0,9)]]).getD j 0)) :=
  find_extreme_temperature_spec [[(1,5),(2,3)],[(4,9),(0,9)]] 2
    (by decide) (by decide) (by decide)

/-- Consuming the single-slot frame channel (`frame_queue.get`) returns its
current content, modelled as the slot's state. -/
def consume {α : Type} (slot : Option α) : Option α := slot

/-- Eviction step of the publish sequence in main.py `camera_loop` and
display_hybrid.py `camera_capture_loop`: `if not frame_queue.empty():
frame_queue.get_nowait()` empties an occupied slot and leaves an empty one
unchanged. -/
def evict_if_full {α : Type} (slot : Option α) : Option α :=
  if slot.isSome then none else slot

/-- Store step `frame_queue.put(frame)`: stores into an empty slot; an occupied
slot keeps its old content (in the source this case would block, but the
publish sequence always evicts first). -/
def put_frame {α : Type} (slot : Option α) (f : α) : Option α :=
  match slot with
  | none => some f
  | some g => some g

/-- The full publish sequence of the capture loops: evict the occupied slot,
then put the new frame. -/
def publish {α : Type} (slot : Option α) (f : α) : Option α :=
  put_frame (evict_if_full slot) f

/-- Claim C3: publishing `a` and then `b` with no intervening consume leaves
exactly `b` in the channel — the subsequent consume yields `b`, and it can
yield `a` only in the degenerate case `a = b`; the occupied slot is evicted
before the new frame is stored, so the put step never hits an occupied slot
(the producer never blocks). -/
theorem publish_overwrites {α : Type} (a b : α) (slot : Option α) :
    consume (publish (publish slot a) b) = some b ∧
    (a ≠ b → consume (publish (publish slot a) b) ≠ some a) ∧
    evict_if_full (publish slot a) = none := by
  have hkey : publish (publish slot a) b = some b := by
    cases slot <;> rfl
  have hev : evict_if_full (publish slot a) = none := by
    cases slot <;> rfl
  refine ⟨hkey, ?_, hev⟩
  intro hab hcontra
  rw [consume, hkey] at hcontra
  exact hab (Option.some.inj hcontra).symm

/-- Witness for C3 at concrete frames `a = 0`, `b = 1` on an initially empty
ℕ-valued channel. -/
theorem publish_overwrites_witness :
    consume (publish (publish (none : Option ℕ) 0) 1) = some 1 ∧
    ((0 : ℕ) ≠ 1 → consume (publish (publish (none : Option ℕ) 0) 1) ≠ some 0) ∧
    evict_if_full (publish (none : Option ℕ) 0) = none :=
  publish_overwrites 0 1 none

/-- The two presentation modes of display_hybrid.py (`state.mode` is the
string "local" or "remote"). -/
inductive Mode where
  | localMode : Mode
  | remoteMode : Mode
deriving DecidableEq

/-- Observable events of the mode-controller embedding, in program order.
`listeningAck` is the event the spec postulates (server acknowledges it is
listening); the source never emits it, which is what claim C4 is about. -/
inductive MCEvent where
  | serverThreadStart : MCEvent
  | listeningAck : MCEvent
  | setMode : Mode → MCEvent
  | setShouldExit : MCEvent
  | sleepHalf : MCEvent
  | clearServerHandle : MCEvent
deriving DecidableEq

/-- The fields of display_hybrid.py `AppState` relevant to mode switching. -/
structure HybridState where
  mode : Mode
  switchRequested : Option Mode
  serverRunning : Bool
deriving DecidableEq

/-- Embedding of display_hybrid.py `start_web_server` (lines 228-241): builds
the uvicorn server, starts its daemon thread, and returns immediately — there
is no wait for (or acknowledgment of) a listening state. -/
def start_web_server (s : HybridState) : HybridState × List MCEvent :=
  ({ s with serverRunning := true }, [MCEvent.serverThreadStart])

/-- Embedding of display_hybrid.py `stop_web_server` (lines 244-252): if a
server is present, set `should_exit`, sleep 0.5 s, then clear the handles. -/
def stop_web_server (s : HybridState) : HybridState × List MCEvent :=
  if s.serverRunning then
    ({ s with serverRunning := false },
     [MCEvent.setShouldExit, MCEvent.sleepHalf, MCEvent.clearServerHandle])
  else (s, [])

/-- Embedding of the switch-to-local handling of `run_remote_mode` (lines
459-507): when a pending request targets local mode, the loop clears the
request and assigns `state.mode = "local"` first, breaks out of the loop, and
only afterwards calls `stop_web_server`. -/
def remote_mode_handle_switch (s : HybridState) : HybridState × List MCEvent :=
  if s.switchRequested = some Mode.localMode then
    let s1 := { s with switchRequested := none, mode := Mode.localMode }
    let r := stop_web_server s1
    (r.1, MCEvent.setMode Mode.localMode :: r.2)
  else (s, [])

/-- Embedding of one remote-mode episode of `run_remote_mode`: entry starts
the web server (line 436), then the loop processes a pending switch request. -/
def run_remote_episode (s : HybridState) : HybridState × List MCEvent :=
  let e := start_web_server s
  let r := remote_mode_handle_switch e.1
  (r.1, e.2 ++ r.2)

/-- Embedding of the switch-to-remote handling of `run_local_mode` (lines
355-359): a pending remote request clears the request and sets the mode to
remote; the main loop then enters `run_remote_mode`. -/
def local_mode_handle_switch (s : HybridState) : HybridState :=
  if s.switchRequested = some Mode.remoteMode then
    { s with switchRequested := none, mode := Mode.remoteMode }
  else s

/-- Counterexample to claim C4 at the concrete state (Remote, pending
switch-to-local, server running): the event trace of the switch handling is
`setMode local` first and the server-stop events strictly after it, so the
server is not stopped before the state reports Local; and the remote-mode
entry trace contains no listening acknowledgment, so the transition does not
block until the server acknowledges it is listening. -/
theorem mode_controller_counterexample :
    ¬ ((remote_mode_handle_switch ⟨Mode.remoteMode, some Mode.localMode, true⟩).2.indexOf
          MCEvent.setShouldExit <
        (remote_mode_handle_switch ⟨Mode.remoteMode, some Mode.localMode, true⟩).2.indexOf
          (MCEvent.setMode Mode.localMode) ∨
       MCEvent.listeningAck ∈
        (run_remote_episode ⟨Mode.localMode, some Mode.remoteMode, false⟩).2) := by
  decide

/-- Claim C4, amended to the behaviour of the source: a switch-to-remote
request in local mode transitions the state to Remote, and on entry to remote
mode the streaming server thread is started without any blocking wait for a
listening acknowledgment; a switch-to-local request from Remote (with the
server running) clears the request and sets the state to Local first, and only
then stops the streaming server by setting its exit flag, sleeping 0.5 s and
clearing the handle — ending with the server not running. -/
theorem mode_controller_amended (s t : HybridState)
    (hs : s.switchRequested = some Mode.remoteMode)
    (ht : t.switchRequested = some Mode.localMode) (htr : t.serverRunning = true) :
    local_mode_handle_switch s =
      { s with switchRequested := none, mode := Mode.remoteMode } ∧
    (run_remote_episode (local_mode_handle_switch s)).2.head? =
      some MCEvent.serverThreadStart ∧
    MCEvent.listeningAck ∉ (run_remote_episode (local_mode_handle_switch s)).2 ∧
    (remote_mode_handle_switch t).1.mode = Mode.localMode ∧
    (remote_mode_handle_switch t).1.serverRunning = false ∧
    (remote_mode_handle_switch t).2 =
      [MCEvent.setMode Mode.localMode, MCEvent.setShouldExit, MCEvent.sleepHalf,
       MCEvent.clearServerHandle] := by
  have hls : local_mode_handle_switch s =
      { s with switchRequested := none, mode := Mode.remoteMode } := by
    unfold local_mode_handle_switch
    rw [if_pos hs]
  refine ⟨hls, ?_, ?_, ?_, ?_, ?_⟩
  · rw [hls]
    rfl
  · rw [hls]
    simp [run_remote_episode, start_web_server, remote_mode_handle_switch, stop_web_server]
  · unfold remote_mode_handle_switch stop_web_server
    rw [if_pos ht]
    simp [htr]
  · unfold remote_mode_handle_switch stop_web_server
    rw [if_pos ht]
    simp [htr]
  · unfold remote_mode_handle_switch stop_web_server
    rw [if_pos ht]
    simp [htr]

/-- Witness for the amended C4 at concrete states: local mode with a pending
remote request, and remote mode with a pending local request and a running
server. -/
theorem mode_controller_amended_witness :
    local_mode_handle_switch ⟨Mode.localMode, some Mode.remoteMode, false⟩ =
      { mode := Mode.remoteMode, switchRequested := none, serverRunning := false } ∧
    (run_remote_episode
        (local_mode_handle_switch ⟨Mode.localMode, some Mode.remoteMode, false⟩)).2.head? =
      some MCEvent.serverThreadStart ∧
    MCEvent.listeningAck ∉ (run_remote_episode
        (local_mode_handle_switch ⟨Mode.localMode, some Mode.remoteMode, false⟩)).2 ∧
    (remote_mode_handle_switch ⟨Mode.remoteMode, some Mode.localMode, true⟩).1.mode =
      Mode.localMode ∧
    (remote_mode_handle_switch ⟨Mode.remoteMode, some Mode.localMode, true⟩).1.serverRunning =
      false ∧
    (remote_mode_handle_switch ⟨Mode.remoteMode, some Mode.localMode, true⟩).2 =
      [MCEvent.setMode Mode.localMode, MCEvent.setShouldExit, MCEvent.sleepHalf,
       MCEvent.clearServerHandle] :=
  mode_controller_amended ⟨Mode.localMode, some Mode.remoteMode, false⟩
    ⟨Mode.remoteMode, some Mode.localMode, true⟩ rfl rfl rfl

/-- Embedding of `np.array_split(frame, 2)` on the row axis as used by
thermal_camera.py `process_frame`: the first part receives `⌈n/2⌉` rows and
the second the remaining `⌊n/2⌋`; uneven splits are permitted. -/
def array_split2 {α : Type} (frame : List α) : List α × List α :=
  (frame.take ((frame.length + 1) / 2), frame.drop ((frame.length + 1) / 2))

/-- Error type postulated by the specification for frame decoding. -/
inductive FrameError where
  | malformedFrame : FrameError
deriving DecidableEq

/-- The frame-splitting step of thermal_camera.py `process_frame` (line 53):
`imdata, thdata = np.array_split(frame, 2)`.  The source performs no shape
validation and has no failure path; the `Except` result type exists only so
the specification's claimed `MalformedFrame` failure is expressible, and the
faithful embedding always returns `Except.ok`. -/
def process_frame_split {α : Type} (frame : List α) :
    Except FrameError (List α × List α) :=
  Except.ok (array_split2 frame)

/-- Counterexample to claim C5 at a concrete raw frame with 3 (an odd number
of) rows: the decode step does not fail with `MalformedFrame`; it succeeds and
splits the frame into unequal planes of 2 and 1 rows. -/
theorem process_frame_odd_rows_counterexample :
    ([[(0, 0)], [(0, 0)], [(0, 0)]] : List (List Pixel)).length % 2 = 1 ∧
    process_frame_split ([[(0, 0)], [(0, 0)], [(0, 0)]] : List (List Pixel)) ≠
      Except.error FrameError.malformedFrame ∧
    process_frame_split ([[(0, 0)], [(0, 0)], [(0, 0)]] : List (List Pixel)) =
      Except.ok ([[(0, 0)], [(0, 0)]], [[(0, 0)]]) := by
  refine ⟨rfl, ?_, rfl⟩
  intro h
  exact Except.noConfusion h

/-- Claim C5, amended to the behaviour of the source: the frame decode step
never fails — there is no `MalformedFrame` error and no shape validation; for
every raw frame, including those with an odd row count, `np.array_split`
yields a first plane of `⌈n/2⌉` rows and a second plane of `⌊n/2⌋` rows. -/
theorem process_frame_amended (frame : List (List Pixel)) :
    process_frame_split frame =
      Except.ok
        (frame.take ((frame.length + 1) / 2), frame.drop ((frame.length + 1) / 2)) ∧
    (array_split2 frame).1.length = (frame.length + 1) / 2 ∧
    (array_split2 frame).2.length = frame.length / 2 := by
  refine ⟨rfl, ?_, ?_⟩
  · simp only [array_split2, List.length_take]
    omega
  · simp only [array_split2, List.length_drop]
    omega

/-- Arithmetic mean of a byte-channel, modelling numpy `.mean()` over the
entire plane (sum of all entries divided by their count). -/
def mean (l : List ℕ) : ℚ := (l.map fun n => (n : ℚ)).sum / l.length

/-- Embedding of utils.py `calculate_average_temperature`: the source computes
`round((float(thdata[...,0].mean()) + float(thdata[...,1].mean()) * 256) / 64
- 273.15, 2)`. -/
def calculate_average_temperature (thdata : List (List Pixel)) : ℚ :=
  round2 ((mean (channel0 thdata) + mean (channel1 thdata) * 256) / 64 - 273.15)

/-- The decode formula applied to an arbitrary (possibly fractional) combined
sample value. -/
def decode_sample (v : ℚ) : ℚ := round2 (v / 64 - 273.15)

/-- The mean-then-decode formula in the spec's words: combine the two
channel means as one sample `mean0 + 256 * mean1` and decode that single
value. -/
def mean_then_decode (thdata : List (List Pixel)) : ℚ :=
  decode_sample (mean (channel0 thdata) + 256 * mean (channel1 thdata))

/-- The rival decode-then-mean ordering: the mean of the per-pixel decoded
temperatures. -/
def decode_then_mean (thdata : List (List Pixel)) : ℚ :=
  (thdata.flatten.map calculate_temperature).sum / thdata.flatten.length

/-- Claim C6: the average-temperature operation equals the mean-then-decode
formula — both channel means are combined as `mean0 + mean1 * 256` and the
decode `/64 - 273.15` with 2-decimal rounding is applied to that combined
mean — and it is not the mean of per-pixel decoded temperatures: the two
orderings differ on the concrete plane `[[(1,0),(2,0)]]`, where
mean-then-decode gives `-273.13` and decode-then-mean gives `-273.125`. -/
theorem calculate_average_temperature_spec :
    (∀ thdata : List (List Pixel),
      calculate_average_temperature thdata = mean_then_decode thdata) ∧
    calculate_average_temperature [[(1, 0), (2, 0)]] ≠
      decode_then_mean [[(1, 0), (2, 0)]] := by
  constructor
  · intro thdata
    unfold calculate_average_temperature mean_then_decode decode_sample
    rw [mul_comm (mean (channel1 thdata)) 256]
  · norm_num [calculate_average_temperature, decode_then_mean, mean, channel0,
      channel1, calculate_temperature, round2, round_eq]

/-- Embedding of utils.py `COLORMAPS`: pairs of a cv2 colormap constant and a
display name, in source order (11 entries). -/
def COLORMAPS : List (ℕ × String) :=
  [(2, "Jet"), (11, "Hot"), (13, "Magma"), (14, "Inferno"), (15, "Plasma"),
   (1, "Bone"), (7, "Spring"), (0, "Autumn"), (16, "Viridis"), (12, "Parula"),
   (4, "Inv Rainbow")]

/-- Embedding of settings.py `CameraSettings` (contrast `alpha` is a Python
float, modelled by ℚ). -/
structure CameraSettings where
  width : ℕ
  height : ℕ
  scale : ℕ
  alpha : ℚ
  colormap : ℕ
  rad : ℕ
  threshold : ℕ
  hud : Bool
  recording : Bool
  elapsed : String
  snaptime : String
  dispFullscreen : Bool
  cmapText : String

/-- The dataclass defaults of settings.py `CameraSettings`. -/
def initialSettings : CameraSettings :=
  { width := 256, height := 192, scale := 3, alpha := 1.0, colormap := 0,
    rad := 0, threshold := 2, hud := true, recording := false,
    elapsed := "00:00:00", snaptime := "None", dispFullscreen := false,
    cmapText := "Jet" }

/-- Embedding of the mutable state of a thermal_camera.py `ThermalCamera`:
its settings plus the recording-sink bookkeeping (`videoOut` creations and
`release()` calls are counted, `start_time` is kept explicitly). -/
structure ThermalCameraState where
  settings : CameraSettings
  startTime : ℕ
  sinkOpens : ℕ
  sinkReleases : ℕ

/-- A freshly constructed camera: default settings, no recording sink ever
opened or released. -/
def initial_camera : ThermalCameraState :=
  { settings := initialSettings, startTime := 0, sinkOpens := 0, sinkReleases := 0 }

/-- Two-digit zero padding, as produced by `strftime` fields. -/
def pad2 (n : ℕ) : String := if n < 10 then "0" ++ toString n else toString n

/-- Embedding of `time.strftime("%H:%M:%S", time.gmtime(d))` on a second
count `d`. -/
def format_hms (d : ℕ) : String :=
  pad2 (d / 3600 % 24) ++ ":" ++ pad2 (d % 3600 / 60) ++ ":" ++ pad2 (d % 60)

/-- Embedding of thermal_camera.py `cycle_colormap`: advance the index
cyclically modulo `len(COLORMAPS)` and refresh the display name from the
list. -/
def cycle_colormap (c : ThermalCameraState) : ThermalCameraState :=
  let i := (c.settings.colormap + 1) % COLORMAPS.length
  { c with settings :=
      { c.settings with colormap := i, cmapText := (COLORMAPS.getD i (0, "")).2 } }

/-- The `h` handler: `update_setting('hud', not self.settings.hud)`. -/
def toggle_hud (c : ThermalCameraState) : ThermalCameraState :=
  { c with settings := { c.settings with hud := !c.settings.hud } }

/-- Embedding of thermal_camera.py `start_recording` at wall-clock second `t`:
guarded on not already recording; opens a new `VideoWriter` (counted), sets
the recording flag and records the start time. -/
def start_recording (t : ℕ) (c : ThermalCameraState) : ThermalCameraState :=
  if c.settings.recording then c
  else
    { c with sinkOpens := c.sinkOpens + 1, startTime := t,
             settings := { c.settings with recording := true } }

/-- Embedding of thermal_camera.py `stop_recording`: guarded on recording;
releases the sink (counted), clears the flag, resets the elapsed label. -/
def stop_recording (c : ThermalCameraState) : ThermalCameraState :=
  if c.settings.recording then
    { c with sinkReleases := c.sinkReleases + 1,
             settings := { c.settings with recording := false, elapsed := "00:00:00" } }
  else c

/-- Embedding of thermal_camera.py `toggle_recording`. -/
def toggle_recording (t : ℕ) (c : ThermalCameraState) : ThermalCameraState :=
  if c.settings.recording then stop_recording c else start_recording t c

/-- Embedding of `take_snapshot`: writes the heatmap to disk and stores the
current `%H:%M:%S` time in the snaptime label. -/
def take_snapshot (t : ℕ) (c : ThermalCameraState) : ThermalCameraState :=
  { c with settings := { c.settings with snaptime := format_hms t } }

/-- The `f`/`v` handlers store a new contrast value via
`update_setting('alpha', ...)`. -/
def set_alpha (a : ℚ) (c : ThermalCameraState) : ThermalCameraState :=
  { c with settings := { c.settings with alpha := a } }

/-- Embedding of thermal_camera.py `update_elapsed_time` at wall-clock second
`t`: while recording, the elapsed label is recomputed from the start time. -/
def update_elapsed_time (t : ℕ) (c : ThermalCameraState) : ThermalCameraState :=
  if c.settings.recording then
    { c with settings :=
        { c.settings with elapsed := format_hms (t - c.startTime) } }
  else c

/-- Embedding of thermal_camera.py `handle_command` at wall-clock second `t`:
dispatch through the key-handler table (`setup_key_handlers`), unmatched
tokens fall through, then `update_elapsed_time` always runs. -/
def handle_command (t : ℕ) (cmd : Char) (c : ThermalCameraState) : ThermalCameraState :=
  update_elapsed_time t
    (if cmd = 'm' then cycle_colormap c
     else if cmd = 'h' then toggle_hud c
     else if cmd = 'r' then toggle_recording t c
     else if cmd = 'p' then take_snapshot t c
     else if cmd = 'f' then set_alpha (min 3.0 (c.settings.alpha + 0.1)) c
     else if cmd = 'v' then set_alpha (max 0.1 (c.settings.alpha - 0.1)) c
     else c)

/-- Claim C7: starting from any state that is not recording, executing the
`r` command twice (at any two times) leaves recording off, resets the elapsed
label to its zero value "00:00:00", and finalizes the recording sink exactly
once: the release count grows by exactly one. -/
theorem recording_toggle_twice (t1 t2 : ℕ) (c : ThermalCameraState)
    (h : c.settings.recording = false) :
    (handle_command t2 'r' (handle_command t1 'r' c)).settings.recording = false ∧
    (handle_command t2 'r' (handle_command t1 'r' c)).settings.elapsed = "00:00:00" ∧
    (handle_command t2 'r' (handle_command t1 'r' c)).sinkReleases = c.sinkReleases + 1 := by
  simp [handle_command, toggle_recording, start_recording, stop_recording,
    update_elapsed_time, h]

/-- Witness for C7 at the initial camera state with toggle times 3 and 8. -/
theorem recording_toggle_twice_witness :
    (handle_command 8 'r' (handle_command 3 'r' initial_camera)).settings.recording = false ∧
    (handle_command 8 'r' (handle_command 3 'r' initial_camera)).settings.elapsed = "00:00:00" ∧
    (handle_command 8 'r' (handle_command 3 'r' initial_camera)).sinkReleases =
      initial_camera.sinkReleases + 1 :=
  recording_toggle_twice 3 8 initial_camera rfl

/-- The contrast update performed by the `f` handler:
`min(3.0, alpha + 0.1)`. -/
def alphaF (a : ℚ) : ℚ := min 3.0 (a + 0.1)

/-- The contrast update performed by the `v` handler:
`max(0.1, alpha - 0.1)`. -/
def alphaV (a : ℚ) : ℚ := max 0.1 (a - 0.1)

theorem alphaF_iter_fixed : ∀ k : ℕ, alphaF^[k] 3.0 = 3.0 := by
  intro k
  induction k with
  | zero => rfl
  | succ n ih =>
    rw [Function.iterate_succ_apply, show alphaF 3.0 = 3.0 by norm_num [alphaF], ih]

theorem alphaV_iter_fixed : ∀ k : ℕ, alphaV^[k] 0.1 = 0.1 := by
  intro k
  induction k with
  | zero => rfl
  | succ n ih =>
    rw [Function.iterate_succ_apply, show alphaV 0.1 = 0.1 by norm_num [alphaV], ih]

/-- Claim C8: the `f` command sets the contrast to `min(3.0, alpha + 0.1)` and
the `v` command to `max(0.1, alpha - 0.1)`; iterating `f` from 2.95 reaches
exactly 3.0 after one step and stays there for every further step, and
iterating `v` from 0.15 reaches exactly 0.1 and stays there — the clamp
bounds are fixed points. -/
theorem contrast_clamp_spec :
    (∀ (t : ℕ) (c : ThermalCameraState),
      (handle_command t 'f' c).settings.alpha = alphaF c.settings.alpha) ∧
    (∀ (t : ℕ) (c : ThermalCameraState),
      (handle_command t 'v' c).settings.alpha = alphaV c.settings.alpha) ∧
    alphaF 3.0 = 3.0 ∧ alphaV 0.1 = 0.1 ∧
    (∀ n : ℕ, 1 ≤ n → alphaF^[n] 2.95 = 3.0) ∧
    (∀ n : ℕ, 1 ≤ n → alphaV^[n] 0.15 = 0.1) := by
  refine ⟨?_, ?_, by norm_num [alphaF], by norm_num [alphaV], ?_, ?_⟩
  · intro t c
    have hred : handle_command t 'f' c =
        update_elapsed_time t (set_alpha (min 3.0 (c.settings.alpha + 0.1)) c) := by
      unfold handle_command
      rw [if_neg (by decide), if_neg (by decide), if_neg (by decide),
        if_neg (by decide), if_pos rfl]
    rw [hred]
    unfold update_elapsed_time set_alpha alphaF
    split <;> rfl
  · intro t c
    have hred : handle_command t 'v' c =
        update_elapsed_time t (set_alpha (max 0.1 (c.settings.alpha - 0.1)) c) := by
      unfold handle_command
      rw [if_neg (by decide), if_neg (by decide), if_neg (by decide),
        if_neg (by decide), if_neg (by decide), if_pos rfl]
    rw [hred]
    unfold update_elapsed_time set_alpha alphaV
    split <;> rfl
  · intro n hn
    obtain ⟨k, rfl⟩ : ∃ k, n = k + 1 := ⟨n - 1, by omega⟩
    rw [Function.iterate_succ_apply, show alphaF 2.95 = 3.0 by norm_num [alphaF]]
    exact alphaF_iter_fixed k
  · intro n hn
    obtain ⟨k, rfl⟩ : ∃ k, n = k + 1 := ⟨n - 1, by omega⟩
    rw [Function.iterate_succ_apply, show alphaV 0.15 = 0.1 by norm_num [alphaV]]
    exact alphaV_iter_fixed k

/-- Witness for C8: the `f` handler applied at the initial camera and the two
iteration claims instantiated at `n = 1` and `n = 4`. -/
theorem contrast_clamp_spec_witness :
    (handle_command 0 'f' initial_camera).settings.alpha =
      alphaF initial_camera.settings.alpha ∧
    alphaF^[1] 2.95 = 3.0 ∧ alphaV^[4] 0.15 = 0.1 :=
  ⟨contrast_clamp_spec.1 0 initial_camera,
   contrast_clamp_spec.2.2.2.2.1 1 (by decide),
   contrast_clamp_spec.2.2.2.2.2 4 (by decide)⟩

/-- Claim C9: a command token outside the recognized set {m, h, r, p, f, v}
is a no-op on every settings field (colormap, cmapText, hud, recording,
alpha, snaptime) and raises no error; it reduces to the trailing
`update_elapsed_time`, which recomputes the elapsed label from the recording
start time exactly when recording is active. -/
theorem unknown_command_noop (t : ℕ) (cmd : Char) (c : ThermalCameraState)
    (h : cmd ∉ (['m', 'h', 'r', 'p', 'f', 'v'] : List Char)) :
    handle_command t cmd c = update_elapsed_time t c ∧
    (handle_command t cmd c).settings.colormap = c.settings.colormap ∧
    (handle_command t cmd c).settings.cmapText = c.settings.cmapText ∧
    (handle_command t cmd c).settings.hud = c.settings.hud ∧
    (handle_command t cmd c).settings.recording = c.settings.recording ∧
    (handle_command t cmd c).settings.alpha = c.settings.alpha ∧
    (handle_command t cmd c).settings.snaptime = c.settings.snaptime ∧
    (c.settings.recording = true →
      (handle_command t cmd c).settings.elapsed = format_hms (t - c.startTime)) ∧
    (c.settings.recording = false →
      (handle_command t cmd c).settings.elapsed = c.settings.elapsed) := by
  simp only [List.mem_cons, List.not_mem_nil, or_false, not_or] at h
  obtain ⟨h1, h2, h3, h4, h5, h6⟩ := h
  have hcore : handle_command t cmd c = update_elapsed_time t c := by
    unfold handle_command
    rw [if_neg h1, if_neg h2, if_neg h3, if_neg h4, if_neg h5, if_neg h6]
  refine ⟨hcore, ?_⟩
  rw [hcore]
  unfold update_elapsed_time
  rcases hrec : c.settings.recording <;> simp [hrec]

/-- Witness for C9 at the unrecognized token `x`, time 42, initial camera. -/
theorem unknown_command_noop_witness :
    handle_command 42 'x' initial_camera = update_elapsed_time 42 initial_camera ∧
    (handle_command 42 'x' initial_camera).settings.colormap =
      initial_camera.settings.colormap ∧
    (handle_command 42 'x' initial_camera).settings.cmapText =
      initial_camera.settings.cmapText ∧
    (handle_command 42 'x' initial_camera).settings.hud =
      initial_camera.settings.hud ∧
    (handle_command 42 'x' initial_camera).settings.recording =
      initial_camera.settings.recording ∧
    (handle_command 42 'x' initial_camera).settings.alpha =
      initial_camera.settings.alpha ∧
    (handle_command 42 'x' initial_camera).settings.snaptime =
      initial_camera.settings.snaptime ∧
    (initial_camera.settings.recording = true →
      (handle_command 42 'x' initial_camera).settings.elapsed =
        format_hms (42 - initial_camera.startTime)) ∧
    (initial_camera.settings.recording = false →
      (handle_command 42 'x' initial_camera).settings.elapsed =
        initial_camera.settings.elapsed) :=
  unknown_command_noop 42 'x' initial_camera (by decide)

/-- The invariant of claim C10: the colormap index is within the 11-entry
palette and the display name is the one paired with the index. -/
def colormap_invariant (c : ThermalCameraState) : Prop :=
  c.settings.colormap < COLORMAPS.length ∧
  c.settings.cmapText = (COLORMAPS.getD c.settings.colormap (0, "")).2

theorem handle_command_preserves_colormap_invariant (t : ℕ) (cmd : Char)
    (c : ThermalCameraState) (h : colormap_invariant c) :
    colormap_invariant (handle_command t cmd c) := by
  obtain ⟨hlt, hsync⟩ := h
  unfold handle_command update_elapsed_time colormap_invariant
  unfold cycle_colormap toggle_hud toggle_recording start_recording stop_recording
    take_snapshot set_alpha
  split_ifs <;>
    simp_all [COLORMAPS] <;>
    omega

theorem foldl_preserves_colormap_invariant :
    ∀ (cmds : List (ℕ × Char)) (c : ThermalCameraState), colormap_invariant c →
      colormap_invariant
        (cmds.foldl (fun st p => handle_command p.1 p.2 st) c) := by
  intro cmds
  induction cmds with
  | nil => intro c h; exact h
  | cons p rest ih =>
    intro c h
    exact ih _ (handle_command_preserves_colormap_invariant p.1 p.2 c h)

/-- Claim C10: every sequence of timed commands executed from the initial
camera state keeps the colormap index strictly below 11 (within the fixed
palette list) and keeps the active colormap display name equal to the name
paired with the current index — in particular this holds after any `m`
command. -/
theorem colormap_index_invariant (cmds : List (ℕ × Char)) :
    (cmds.foldl (fun st p => handle_command p.1 p.2 st) initial_camera).settings.colormap
        < 11 ∧
    (cmds.foldl (fun st p => handle_command p.1 p.2 st) initial_camera).settings.cmapText =
      (COLORMAPS.getD
        (cmds.foldl (fun st p => handle_command p.1 p.2 st)
          initial_camera).settings.colormap (0, "")).2 := by
  have h0 : colormap_invariant initial_camera := ⟨by decide, rfl⟩
  have := foldl_preserves_colormap_invariant cmds initial_camera h0
  exact ⟨this.1, this.2⟩

end PyThermalCamera
